import Mathlib

/-!
Verification of the build orchestrator `setup.py` of pangeo-pytide.

The development shallowly embeds the two core procedures of the file:

* `revision` (version derivation and propagation, source lines 52-125),
  together with its helpers `update_meta` (lines 37-49) and the regular
  expression searches it performs;
* `BuildExt.build_cmake` / `BuildExt.set_cmake_user_options` /
  `BuildExt.eigen` (native build invocation assembly, lines 144-240).

Python strings are modelled as `String` or `List Char`; the filesystem
visible to `revision` is a record of the three files it touches; external
subprocess output (`git describe`, `git log`) and the `datetime` library
are oracle parameters.  Python exceptions are explicit error values.

Regular-expression searches are embedded as direct maximal-munch scanners.
For each of the five concrete patterns in the source, greedy matching with
backtracking coincides with maximal munch, because in every pattern each
quantified character class is followed either by a literal outside the
class (so no shorter munch can succeed) or by an optional tail (so the
maximal munch is the greedy first success).  Character classes model the
the ASCII behaviour of the Python classes `\w`, `\d`, `\s`.
-/

/-- Python `\w` (ASCII): letters, digits and underscore.  The source
classes `[\w\d]` coincide with `\w`. -/
def isWordChar (c : Char) : Bool := c.isAlphanum || c = '_'

/-- The class `[\w\d\.]` of the tag pattern (source line 57). -/
def isWordDotChar (c : Char) : Bool := isWordChar c || c = '.'

/-- Python `\d`. -/
def isDigitChar (c : Char) : Bool := c.isDigit

/-- Python `\s` (ASCII whitespace). -/
def isSpaceChar (c : Char) : Bool :=
  c = ' ' || c = '\t' || c = '\n' || c = '\r' || c = '\x0b' || c = '\x0c'

/-- Maximal run of characters of a class: the `+`/`*` munch of a regex. -/
def takeW (p : Char → Bool) : List Char → List Char
  | [] => []
  | c :: cs => if p c then c :: takeW p cs else []

/-- Remainder after the maximal run of a class. -/
def dropW (p : Char → Bool) : List Char → List Char
  | [] => []
  | c :: cs => if p c then dropW p cs else c :: cs

/-- Python `str.strip()`: remove leading and trailing whitespace. -/
def pyStrip (s : String) : String :=
  ⟨(dropW isSpaceChar (dropW isSpaceChar s.data).reverse).reverse⟩

/-- `readlines` / file-line iteration: split into lines, each keeping its
terminating newline; a final unterminated chunk is a line of its own. -/
def splitLinesAux : List Char → List Char → List (List Char)
  | [], acc => if acc.isEmpty then [] else [acc.reverse]
  | c :: cs, acc =>
    if c = '\n' then (acc.reverse ++ ['\n']) :: splitLinesAux cs []
    else splitLinesAux cs (c :: acc)

/-- Lines of a file, as produced by `readlines` on its content. -/
def splitLines (s : String) : List String :=
  (splitLinesAux s.data []).map (fun l => ⟨l⟩)

/-- Python `str.split()` with no argument: maximal non-whitespace runs. -/
def pySplitAux : List Char → List Char → List (List Char)
  | [], acc => if acc.isEmpty then [] else [acc.reverse]
  | c :: cs, acc =>
    if isSpaceChar c then
      if acc.isEmpty then pySplitAux cs [] else acc.reverse :: pySplitAux cs []
    else pySplitAux cs (c :: acc)

def pySplit (l : List Char) : List (List Char) := pySplitAux l []

/-- Decimal value of a digit run. -/
def digitsToNat (l : List Char) : Nat :=
  l.foldl (fun n c => n * 10 + (c.toNat - '0'.toNat)) 0

/-- Python `int(str)`: optional sign and a non-empty digit run (the only
shapes fed to it by `revision`); anything else is a `ValueError` (`none`). -/
def pyInt (s : String) : Option Int :=
  match (pyStrip s).data with
  | [] => none
  | '-' :: ds =>
    if ds.isEmpty || !ds.all isDigitChar then none else some (-(digitsToNat ds : Int))
  | '+' :: ds =>
    if ds.isEmpty || !ds.all isDigitChar then none else some (digitsToNat ds)
  | ds => if !ds.all isDigitChar then none else some (digitsToNat ds)

/-- Attempted match of `([\w\d\.]+)-(\d+)-g([\w\d]+)(?:-(dirty))?`
(source line 57) anchored at the current position; returns tag, hash and
whether the dirty group matched. -/
def matchP1At (s : List Char) : Option (String × String × Bool) :=
  match takeW isWordDotChar s, dropW isWordDotChar s with
  | [], _ => none
  | g1, '-' :: r2 =>
    match takeW isDigitChar r2, dropW isDigitChar r2 with
    | [], _ => none
    | _, '-' :: 'g' :: r4 =>
      match takeW isWordChar r4, dropW isWordChar r4 with
      | [], _ => none
      | g3, r5 => some (⟨g1⟩, ⟨g3⟩, ("-dirty".data).isPrefixOf r5)
    | _, _ => none
  | _, _ => none

/-- `re.search` of the tag pattern: first position with a match. -/
def searchP1 : List Char → Option (String × String × Bool)
  | [] => none
  | c :: cs =>
    match matchP1At (c :: cs) with
    | some r => some r
    | none => searchP1 cs

/-- `re.search` of `([\w\d]+)(?:-(dirty))?` (source line 73): group 1 is the
maximal word run at the first word character. -/
def searchP2 : List Char → Option String
  | [] => none
  | c :: cs => if isWordChar c then some ⟨takeW isWordChar (c :: cs)⟩ else searchP2 cs

/-- The literal `result = "` that follows the whitespace in the pattern
`\s+result = "(.*)"` (source line 63). -/
def stripResultMarker : List Char → Option (List Char)
  | 'r' :: 'e' :: 's' :: 'u' :: 'l' :: 't' :: ' ' :: '=' :: ' ' :: '"' :: rest => some rest
  | _ => none

/-- The group `(.*)"` of the persisted-version pattern: everything up to the
last double quote of the line (greedy `.*` cannot cross a newline). -/
def beforeLastQuote (s : List Char) : Option (List Char) :=
  match dropW (fun c => c ≠ '"') (takeW (fun c => c ≠ '\n') s).reverse with
  | '"' :: r => some r.reverse
  | _ => none

/-- Attempted match of `\s+result = "(.*)"` anchored at the position. -/
def matchP3At (s : List Char) : Option String :=
  if (takeW isSpaceChar s).isEmpty then none
  else
    match stripResultMarker (dropW isSpaceChar s) with
    | none => none
    | some rest => (beforeLastQuote rest).map (fun l => ⟨l⟩)

/-- `re.search` of the persisted-version pattern on one line. -/
def searchP3 : List Char → Option String
  | [] => none
  | c :: cs =>
    match matchP3At (c :: cs) with
    | some v => some v
    | none => searchP3 cs

/-- Attempted match of `(\w+)\s+=\s+(.*)` (source line 95) anchored at the
position; returns the key and the value text. -/
def matchP4At (s : List Char) : Option (String × String) :=
  match takeW isWordChar s with
  | [] => none
  | g1 =>
    match takeW isSpaceChar (dropW isWordChar s), dropW isSpaceChar (dropW isWordChar s) with
    | [], _ => none
    | _, '=' :: r3 =>
      match takeW isSpaceChar r3 with
      | [] => none
      | _ => some (⟨g1⟩, ⟨takeW (fun c => c ≠ '\n') (dropW isSpaceChar r3)⟩)
    | _, _ => none

/-- `re.search` of the `key = value` pattern on one line. -/
def searchP4 : List Char → Option (String × String)
  | [] => none
  | c :: cs =>
    match matchP4At (c :: cs) with
    | some r => some r
    | none => searchP4 cs

/-- Substring test, used by the meta-template pattern. -/
def containsSub (pat : List Char) : List Char → Bool
  | [] => pat.isEmpty
  | c :: cs => pat.isPrefixOf (c :: cs) || containsSub pat cs

/-- Attempted match of the template pattern
`\x7b% set version = ".*" %\x7d` (source line 41) at the position: the
literal prefix, then `" %\x7d` somewhere before the end of the line. -/
def matchP5At (s : List Char) : Bool :=
  ("\x7b% set version = \"".data).isPrefixOf s
    && containsSub ("\" %\x7d".data) (takeW (fun c => c ≠ '\n') (s.drop 18))

/-- `re.search` of the meta-template pattern on one line (Boolean: the
groups of the match are unused by the source). -/
def searchP5 : List Char → Bool
  | [] => false
  | c :: cs => matchP5At (c :: cs) || searchP5 cs

/-- Python `%r` applied to the version strings the source produces: `repr`
of a string without quotes, backslashes or control characters wraps it in
single quotes.  Theorems depending on its value restrict the argument to
the tag/bootstrap alphabet `[\w\d\.]`, where this model is exact. -/
def pyRepr (s : String) : String := "\x27" ++ s ++ "\x27"

/-- The three files `revision` reads or writes, keyed by their fixed paths
in the source: `src/pytide/version.py` (line 55), `conda/meta.yaml`
(line 87) and `docs/source/conf.py` (line 92).  `none` means the file does
not exist; `open(..., "r")` on it raises `FileNotFoundError`. -/
structure PyFS where
  moduleFile : Option String
  metaFile : Option String
  confFile : Option String
deriving Repr, DecidableEq

/-- The Python exceptions `revision` can raise, by kind. -/
inductive PyError where
  | fileNotFound
  | assertionError
  | attributeError
  | indexError
  | valueError
deriving Repr, DecidableEq

/-- `update_meta` (source lines 37-49) on the content of the file: every line
matching the template pattern is replaced wholesale. -/
def updateMetaContent (version : String) (content : String) : String :=
  String.join ((splitLinesAux content.data []).map (fun l =>
    if searchP5 l then "\x7b% set version = \"" ++ version ++ "\" %\x7d\n" else ⟨l⟩))

/-- One line of the conf.py rewrite loop (source lines 97-105): a line whose
first `key = value` match has key `version`, `release` or `copyright` is
replaced, every other line is kept. -/
def updateConfLine (version : String) (year : Int) (line : String) : String :=
  match searchP4 line.data with
  | none => line
  | some (key, _) =>
    if key = "version" then "version = " ++ pyRepr version ++ "\n"
    else if key = "release" then "release = " ++ pyRepr version ++ "\n"
    else if key = "copyright" then
      "copyright = \x27(" ++ toString year ++ ", CNES/CLS)\x27\n"
    else line

/-- The conf.py rewrite (source lines 92-108) on the content of the file. -/
def updateConfContent (version : String) (year : Int) (content : String) : String :=
  String.join ((splitLinesAux content.data []).map (fun l => updateConfLine version year ⟨l⟩))

/-- The generated version module (source lines 111-124): the triple-quoted
template with the version and formatted date substituted. -/
def moduleContent (version date : String) : String :=
  "\"\"\"\nGet software version information\n================================\n\"\"\"\n\n\ndef release(full: bool = False) -> str:\n    \"\"\"Returns the software version number\"\"\"\n    result = \""
    ++ version
    ++ "\"\n    if full:\n        result += \" ("
    ++ date
    ++ ")\"\n    return result\n"

/-- The fallback scan of the persisted module (source lines 63-68): first
line matching `\s+result = "(.*)"` yields its group. -/
def firstResultLine : List (List Char) → Option String
  | [] => none
  | l :: ls =>
    match searchP3 l with
    | some v => some v
    | none => firstResultLine ls

def scanContent (content : String) : Option String :=
  firstResultLine (splitLinesAux content.data [])

/-- Parse of the stripped describe output (source lines 57-58 and 72-79):
tag pattern first, else the loose hash pattern; `match.group(1)` on a
failed loose match raises `AttributeError`. -/
def versionSha (stdout : String) : Except PyError (String × String) :=
  match searchP1 stdout.data with
  | some (g1, g3, _) => .ok (g1, g3)
  | none =>
    match searchP2 stdout.data with
    | some g1 => .ok ("0.1", g1)
    | none => .error .attributeError

/-- The timestamp token of the `git log` output (source lines 81-83):
second whitespace-separated token, parsed as an integer. -/
def gitLogTs (out : String) : Option Int :=
  match (pySplit (pyStrip out).data)[1]? with
  | none => none
  | some t => pyInt ⟨t⟩

/-- `revision` (source lines 52-125).  `describeRaw` is the stdout of
`git describe --tags --dirty --long --always`; `gitLog` maps a hash to the
stdout of `git log <hash> -1 --format="%H %at"`; `utcYear` and `utcFmt`
are oracles for `datetime.datetime.utcfromtimestamp(ts).year` and
`...strftime("%d %B %Y")`.  Returns the version and the updated files, or
the exception that propagates (partial writes before an exception are not
observed, as the build process aborts). -/
def revision (describeRaw : String) (gitLog : String → String)
    (utcYear : Int → Int) (utcFmt : Int → String) (fs : PyFS) :
    Except PyError (String × PyFS) :=
  if pyStrip describeRaw = "" then
    match fs.moduleFile with
    | none => .error .fileNotFound
    | some content =>
      match scanContent content with
      | some v => .ok (v, fs)
      | none => .error .assertionError
  else
    match versionSha (pyStrip describeRaw) with
    | .error e => .error e
    | .ok (version, sha1) =>
      match (pySplit (pyStrip (gitLog sha1)).data)[1]? with
      | none => .error .indexError
      | some t1 =>
        match pyInt ⟨t1⟩ with
        | none => .error .valueError
        | some ts =>
          match fs.confFile with
          | none => .error .fileNotFound
          | some cc =>
            .ok (version,
              { moduleFile := some (moduleContent version (utcFmt ts)),
                metaFile := fs.metaFile.map (updateMetaContent version),
                confFile := some (updateConfContent version (utcYear ts) cc) })

/-- The module-level interpreter gate (source lines 20-24): `True` exactly
when `not (MAJOR >= 3 and MINOR >= 6)`, i.e. when the `RuntimeError` is
raised. -/
def versionGateRaises (major minor : Nat) : Bool :=
  !(decide (major ≥ 3) && decide (minor ≥ 6))

/-- `os.path.join` of two components (POSIX separator). -/
def pyJoin (a b : String) : String := a ++ "/" ++ b

/-- `os.path.dirname`: everything before the last separator. -/
def dirname (p : String) : String :=
  ⟨((dropW (fun c => c ≠ '/') p.data.reverse).drop 1).reverse⟩

/-- `BuildExt.eigen` (source lines 150-164): probe the two conventional
Eigen3 locations under the interpreter prefix; `ex` is `os.path.exists`.
A failed probe of the Windows-style path falls back to its parent
directory before the fatal `RuntimeError`. -/
def eigen (pfx : String) (ex : String → Bool) : Except String String :=
  if ex (pyJoin (pyJoin pfx "include") "eigen3") then
    .ok ("-DEIGEN3_INCLUDE_DIR=" ++ pyJoin (pyJoin pfx "include") "eigen3")
  else
    if ex (pyJoin (pyJoin (pyJoin pfx "Library") "include") "eigen3") then
      .ok ("-DEIGEN3_INCLUDE_DIR=" ++ pyJoin (pyJoin (pyJoin pfx "Library") "include") "eigen3")
    else
      if ex (dirname (pyJoin (pyJoin (pyJoin pfx "Library") "include") "eigen3")) then
        .ok ("-DEIGEN3_INCLUDE_DIR="
          ++ dirname (pyJoin (pyJoin (pyJoin pfx "Library") "include") "eigen3"))
      else
        .error "Unable to find the Eigen3 library in the conda distribution used."

/-- `BuildExt.is_conda` (source lines 166-179): sentinel directory under
the prefix, or importable `conda` module (both environment facts are
parameters). -/
def is_conda (condaMetaExists condaImportable : Bool) : Bool :=
  condaMetaExists || condaImportable

/-- `BuildExt.set_cmake_user_options` (source lines 181-194): the compiler
override if given; then the Eigen3 override if given, else the conda probe
when in a conda environment (which may raise). -/
def set_cmake_user_options (cxxCompiler eigen3IncludeDir : Option String)
    (isConda : Bool) (pfx : String) (ex : String → Bool) :
    Except String (List String) :=
  let result : List String :=
    match cxxCompiler with
    | some c => ["-DCMAKE_CXX_COMPILER=" ++ c]
    | none => []
  match eigen3IncludeDir with
  | some e => .ok (result ++ ["-DEIGEN3_INCLUDE_DIR=" ++ e])
  | none =>
    if isConda then
      match eigen pfx ex with
      | .ok s => .ok (result ++ [s])
      | .error m => .error m
    else .ok result

/-- The `cmake_args` assembly of `build_cmake` (source lines 209-227). -/
def cmakeArgsOf (extdir pyExe : String) (userOpts : List String)
    (cfg plat : String) : List String :=
  let base := ["-DCMAKE_LIBRARY_OUTPUT_DIRECTORY=" ++ extdir,
               "-DPYTHON_EXECUTABLE=" ++ pyExe] ++ userOpts
  if plat ≠ "Windows" then
    (base ++ ["-DCMAKE_BUILD_TYPE=" ++ cfg])
      ++ (if plat = "Darwin" then ["-DCMAKE_OSX_DEPLOYMENT_TARGET=10.14"] else [])
  else
    base ++ ["-G", "Visual Studio 15 2017", "-DCMAKE_GENERATOR_PLATFORM=x64",
             "-DCMAKE_LIBRARY_OUTPUT_DIRECTORY_" ++ cfg.toUpper ++ "=" ++ extdir]

/-- The `build_args` assembly of `build_cmake` (source lines 214-233). -/
def buildArgsOf (cfg : String) (verbose : Bool) (plat : String)
    (cpuCount : Nat) : List String :=
  let ba := ["--config", cfg]
  let ba :=
    if plat ≠ "Windows" then ba ++ ["--", "-j" ++ toString cpuCount]
    else (ba ++ ["--", "/m"]) ++ (if verbose then ["/verbosity:n"] else [])
  if verbose then "--verbose" :: ba else ba

/-- Errors of the native build step: the `RuntimeError` of the Eigen3 probe
and `DistutilsExecError` of a failed `spawn`. -/
inductive BuildErr where
  | runtimeError (msg : String)
  | execError
deriving Repr, DecidableEq

/-- Observable outcome of `build_cmake`: the propagated exception if any,
the external commands invoked, and the process working directory when the
step ends (normally or by exception). -/
structure BuildOutcome where
  error : Option BuildErr
  spawned : List (List String)
  finalCwd : String
deriving Repr, DecidableEq

/-- `BuildExt.build_cmake` (source lines 196-240).  `cwd` is the process
directory at entry, `buildTemp` the build directory, `configureOk` and
`buildOk` whether the two `spawn` calls succeed.  The argument assembly
(including the Eigen3 probe inside `set_cmake_user_options`) runs before
`os.chdir(build_temp)` (line 235); `os.chdir(cwd)` (line 240) runs only
after both spawns return, with no `try`/`finally`. -/
def build_cmake (cwd buildTemp extdir pyExe : String)
    (debug verbose dryRun : Bool) (plat : String) (cpuCount : Nat)
    (cxxCompiler eigen3IncludeDir : Option String) (isConda : Bool)
    (pfx : String) (ex : String → Bool) (configureOk buildOk : Bool) :
    BuildOutcome :=
  match set_cmake_user_options cxxCompiler eigen3IncludeDir isConda pfx ex with
  | .error msg => { error := some (.runtimeError msg), spawned := [], finalCwd := cwd }
  | .ok userOpts =>
    let cfg := if debug then "Debug" else "Release"
    let cfgCmd := ["cmake", cwd] ++ cmakeArgsOf extdir pyExe userOpts cfg plat
    if !configureOk then
      { error := some .execError, spawned := [cfgCmd], finalCwd := buildTemp }
    else if dryRun then
      { error := none, spawned := [cfgCmd], finalCwd := cwd }
    else
      let bCmd := ["cmake", "--build", ".", "--target", "core"]
        ++ buildArgsOf cfg verbose plat cpuCount
      if !buildOk then
        { error := some .execError, spawned := [cfgCmd, bCmd], finalCwd := buildTemp }
      else
        { error := none, spawned := [cfgCmd, bCmd], finalCwd := cwd }

/-- The shape of a well-formed describe output, the input domain of claim
C5: `<tag>-<count>-g<hash>` with an optional `-dirty` marker. -/
def describeString (tag cnt hash : String) (dirty : Bool) : String :=
  tag ++ "-" ++ cnt ++ "-g" ++ hash ++ (if dirty then "-dirty" else "")

/-- The description in the spec (claim C6) of the hash extracted by the loose
fallback pattern: "the leading word of the output". -/
def leadingWord (s : String) : String :=
  ⟨takeW isWordChar (dropW (fun c => !isWordChar c) s.data)⟩

theorem data_append (a b : String) : (a ++ b).data = a.data ++ b.data := rfl

theorem mk_data (s : String) : (⟨s.data⟩ : String) = s := rfl

theorem takeW_cons_neg {p : Char → Bool} {c : Char} (h : p c = false) (cs : List Char) :
    takeW p (c :: cs) = [] := by
  simp [takeW, h]

theorem dropW_cons_neg {p : Char → Bool} {c : Char} (h : p c = false) (cs : List Char) :
    dropW p (c :: cs) = c :: cs := by
  simp [dropW, h]

theorem takeW_append_all {p : Char → Bool} {xs : List Char}
    (h : ∀ c ∈ xs, p c = true) (ys : List Char) :
    takeW p (xs ++ ys) = xs ++ takeW p ys := by
  induction xs with
  | nil => simp
  | cons a l ih =>
    have ha : p a = true := h a (List.mem_cons_self a l)
    simp only [List.cons_append, takeW, ha, if_true, List.append_eq]
    rw [ih (fun c hc => h c (List.mem_cons_of_mem _ hc))]

theorem dropW_append_all {p : Char → Bool} {xs : List Char}
    (h : ∀ c ∈ xs, p c = true) (ys : List Char) :
    dropW p (xs ++ ys) = dropW p ys := by
  induction xs with
  | nil => simp
  | cons a l ih =>
    have ha : p a = true := h a (List.mem_cons_self a l)
    simp only [List.cons_append, dropW, ha, if_true, List.append_eq]
    exact ih (fun c hc => h c (List.mem_cons_of_mem _ hc))

theorem dropW_of_none {p : Char → Bool} {xs : List Char}
    (h : ∀ c ∈ xs, p c = false) : dropW p xs = xs := by
  cases xs with
  | nil => rfl
  | cons a l => exact dropW_cons_neg (h a (List.mem_cons_self a l)) l

theorem mem_takeW {p : Char → Bool} {l : List Char} {c : Char}
    (h : c ∈ takeW p l) : p c = true := by
  induction l with
  | nil => simp [takeW] at h
  | cons a l ih =>
    by_cases ha : p a = true
    · simp only [takeW, ha, if_true, List.mem_cons] at h
      rcases h with rfl | h
      · exact ha
      · exact ih h
    · simp [takeW, ha] at h

theorem pyStrip_eq_self {s : String} (h : ∀ c ∈ s.data, isSpaceChar c = false) :
    pyStrip s = s := by
  unfold pyStrip
  rw [dropW_of_none h, dropW_of_none (fun c hc => h c (List.mem_reverse.mp hc)),
    List.reverse_reverse]

theorem wordDot_of_word {c : Char} (h : isWordChar c = true) : isWordDotChar c = true := by
  simp [isWordDotChar, h]

theorem wordDot_of_digit {c : Char} (h : isDigitChar c = true) : isWordDotChar c = true := by
  simp only [isWordDotChar, isWordChar, Char.isAlphanum, isDigitChar] at h ⊢
  simp [h]

theorem space_of_wordDot {c : Char} (h : isWordDotChar c = true) : isSpaceChar c = false := by
  cases hs : isSpaceChar c
  · rfl
  · exfalso
    simp only [isSpaceChar, Bool.or_eq_true, decide_eq_true_eq] at hs
    rcases hs with ((((rfl | rfl) | rfl) | rfl) | rfl) | rfl <;> exact absurd h (by decide)

theorem ne_newline_of_wordDot {c : Char} (h : isWordDotChar c = true) : c ≠ '\n' := by
  intro hc
  subst hc
  exact absurd h (by decide)

theorem splitLinesAux_cons (c : Char) (cs acc : List Char) :
    splitLinesAux (c :: cs) acc =
      if c = '\n' then (acc.reverse ++ ['\n']) :: splitLinesAux cs []
      else splitLinesAux cs (c :: acc) := rfl

theorem splitLinesAux_line {a : List Char} (ha : '\n' ∉ a) (b acc : List Char) :
    splitLinesAux (a ++ '\n' :: b) acc
      = ((acc.reverse ++ a) ++ ['\n']) :: splitLinesAux b [] := by
  induction a generalizing acc with
  | nil => simp [splitLinesAux]
  | cons x xs ih =>
    have hx : ¬x = '\n' := fun h => ha (h ▸ List.mem_cons_self x xs)
    rw [List.cons_append, splitLinesAux_cons, if_neg hx,
      ih (fun h => ha (List.mem_cons_of_mem _ h))]
    simp [List.append_assoc]

theorem dash_data : "-".data = ['-'] := rfl

theorem dashg_data : "-g".data = '-' :: 'g' :: [] := rfl

theorem dashdirty_data : "-dirty".data = '-' :: 'd' :: 'i' :: 'r' :: 't' :: 'y' :: [] := rfl

theorem empty_data : "".data = ([] : List Char) := rfl

theorem matchP1At_describe (tag cnt hash tail : List Char)
    (ht1 : tag ≠ []) (ht2 : ∀ c ∈ tag, isWordDotChar c = true)
    (hc1 : cnt ≠ []) (hc2 : ∀ c ∈ cnt, isDigitChar c = true)
    (hh1 : hash ≠ []) (hh2 : ∀ c ∈ hash, isWordChar c = true)
    (htail : tail = [] ∨ ∃ t, tail = '-' :: t) :
    matchP1At (tag ++ '-' :: (cnt ++ '-' :: 'g' :: (hash ++ tail)))
      = some (⟨tag⟩, ⟨hash⟩, ("-dirty".data).isPrefixOf tail) := by
  obtain ⟨t0, ts, rfl⟩ := List.exists_cons_of_ne_nil ht1
  obtain ⟨c0, cs, rfl⟩ := List.exists_cons_of_ne_nil hc1
  obtain ⟨h0, hs, rfl⟩ := List.exists_cons_of_ne_nil hh1
  have e1 : takeW isWordDotChar ((t0 :: ts) ++ '-' :: ((c0 :: cs) ++ '-' :: 'g' :: ((h0 :: hs) ++ tail)))
      = t0 :: ts := by
    rw [takeW_append_all ht2, takeW_cons_neg (by decide), List.append_nil]
  have e2 : dropW isWordDotChar ((t0 :: ts) ++ '-' :: ((c0 :: cs) ++ '-' :: 'g' :: ((h0 :: hs) ++ tail)))
      = '-' :: ((c0 :: cs) ++ '-' :: 'g' :: ((h0 :: hs) ++ tail)) := by
    rw [dropW_append_all ht2, dropW_cons_neg (by decide)]
  have e3 : takeW isDigitChar ((c0 :: cs) ++ '-' :: 'g' :: ((h0 :: hs) ++ tail)) = c0 :: cs := by
    rw [takeW_append_all hc2, takeW_cons_neg (by decide), List.append_nil]
  have e4 : dropW isDigitChar ((c0 :: cs) ++ '-' :: 'g' :: ((h0 :: hs) ++ tail))
      = '-' :: 'g' :: ((h0 :: hs) ++ tail) := by
    rw [dropW_append_all hc2, dropW_cons_neg (by decide)]
  have e5 : takeW isWordChar ((h0 :: hs) ++ tail) = h0 :: hs := by
    rcases htail with rfl | ⟨t, rfl⟩
    · rw [takeW_append_all hh2]; simp [takeW]
    · rw [takeW_append_all hh2, takeW_cons_neg (by decide), List.append_nil]
  have e6 : dropW isWordChar ((h0 :: hs) ++ tail) = tail := by
    rcases htail with rfl | ⟨t, rfl⟩
    · rw [dropW_append_all hh2]; simp [dropW]
    · rw [dropW_append_all hh2, dropW_cons_neg (by decide)]
  simp only [matchP1At, e1, e2, e3, e4, e5, e6]

theorem searchP1_describe (tag cnt hash tail : List Char)
    (ht1 : tag ≠ []) (ht2 : ∀ c ∈ tag, isWordDotChar c = true)
    (hc1 : cnt ≠ []) (hc2 : ∀ c ∈ cnt, isDigitChar c = true)
    (hh1 : hash ≠ []) (hh2 : ∀ c ∈ hash, isWordChar c = true)
    (htail : tail = [] ∨ ∃ t, tail = '-' :: t) :
    searchP1 (tag ++ '-' :: (cnt ++ '-' :: 'g' :: (hash ++ tail)))
      = some (⟨tag⟩, ⟨hash⟩, ("-dirty".data).isPrefixOf tail) := by
  have hm := matchP1At_describe tag cnt hash tail ht1 ht2 hc1 hc2 hh1 hh2 htail
  obtain ⟨t0, ts, rfl⟩ := List.exists_cons_of_ne_nil ht1
  rw [List.cons_append] at hm ⊢
  simp [searchP1, hm]

theorem describeString_data (tag cnt hash : String) (dirty : Bool) :
    (describeString tag cnt hash dirty).data
      = tag.data ++ '-' :: (cnt.data ++ '-' :: 'g' :: (hash.data
          ++ (if dirty then '-' :: 'd' :: 'i' :: 'r' :: 't' :: 'y' :: [] else []))) := by
  cases dirty <;>
    simp [describeString, data_append, dash_data, dashg_data, dashdirty_data, empty_data,
      List.append_assoc]

theorem versionSha_describe (tag cnt hash : String) (dirty : Bool)
    (ht1 : tag.data ≠ []) (ht2 : ∀ c ∈ tag.data, isWordDotChar c = true)
    (hc1 : cnt.data ≠ []) (hc2 : ∀ c ∈ cnt.data, isDigitChar c = true)
    (hh1 : hash.data ≠ []) (hh2 : ∀ c ∈ hash.data, isWordChar c = true) :
    versionSha (describeString tag cnt hash dirty) = .ok (tag, hash) := by
  have htail : (if dirty then '-' :: 'd' :: 'i' :: 'r' :: 't' :: 'y' :: [] else ([] : List Char)) = []
      ∨ ∃ t, (if dirty then '-' :: 'd' :: 'i' :: 'r' :: 't' :: 'y' :: [] else ([] : List Char)) = '-' :: t := by
    cases dirty
    · exact Or.inl rfl
    · exact Or.inr ⟨_, rfl⟩
  have hs := searchP1_describe tag.data cnt.data hash.data _ ht1 ht2 hc1 hc2 hh1 hh2 htail
  simp only [versionSha, describeString_data, hs, mk_data]

theorem searchP2_leading (l : List Char) (h : ∃ c ∈ l, isWordChar c = true) :
    searchP2 l = some ⟨takeW isWordChar (dropW (fun c => !isWordChar c) l)⟩ := by
  induction l with
  | nil => simp at h
  | cons a sl ih =>
    cases ha : isWordChar a with
    | true =>
      rw [dropW_cons_neg (p := fun c => !isWordChar c) (by simp [ha]) sl]
      simp [searchP2, ha]
    | false =>
      have h' : ∃ c ∈ sl, isWordChar c = true := by
        rcases h with ⟨c, hc, hw⟩
        rcases List.mem_cons.mp hc with rfl | hc'
        · rw [ha] at hw; cases hw
        · exact ⟨c, hc', hw⟩
      rw [show dropW (fun c => !isWordChar c) (a :: sl) = dropW (fun c => !isWordChar c) sl
        from by simp [dropW, ha]]
      simp [searchP2, ha, ih h']

/-- C5: for every describe output of the form `<tag>-<count>-g<hash>` with or
without a trailing `-dirty` marker (tag over `[\w\d\.]`, count over `\d`,
hash over `[\w\d]`, each non-empty), the parse step of `revision` (source
lines 56-79) returns version `<tag>` and resolving hash `<hash>`; the result
does not depend on the dirty marker. -/
theorem C5_thm (tag cnt hash : String) (dirty : Bool)
    (ht1 : tag.data ≠ []) (ht2 : ∀ c ∈ tag.data, isWordDotChar c = true)
    (hc1 : cnt.data ≠ []) (hc2 : ∀ c ∈ cnt.data, isDigitChar c = true)
    (hh1 : hash.data ≠ []) (hh2 : ∀ c ∈ hash.data, isWordChar c = true) :
    versionSha (describeString tag cnt hash dirty) = .ok (tag, hash) :=
  versionSha_describe tag cnt hash dirty ht1 ht2 hc1 hc2 hh1 hh2

/-- C5 witness: a concrete dirty describe string resolves to its tag and hash. -/
theorem C5_witness :
    versionSha (describeString "v1.2.3" "4" "ab12cd" true) = .ok ("v1.2.3", "ab12cd") :=
  C5_thm "v1.2.3" "4" "ab12cd" true (by decide) (by decide) (by decide) (by decide)
    (by decide) (by decide)

/-- C6: for every non-empty describe output that does not match the tag
pattern but contains at least one word character, the parse step of
`revision` falls back to bootstrap version `"0.1"` and extracts the leading
word of the output (the `-dirty` suffix, not being word characters, is
never part of it) as the resolving hash. -/
theorem C6_thm (s : String) (_h1 : s ≠ "") (h2 : searchP1 s.data = none)
    (h3 : ∃ c ∈ s.data, isWordChar c = true) :
    versionSha s = .ok ("0.1", leadingWord s) := by
  simp only [versionSha, h2, leadingWord]
  rw [searchP2_leading s.data h3]

/-- C6 witness: a bare dirty hash resolves to version 0.1 and its hash. -/
theorem C6_witness : versionSha "abc123f-dirty" = .ok ("0.1", leadingWord "abc123f-dirty") :=
  C6_thm "abc123f-dirty" (by decide) (by decide) (by decide)

/-- C10: the interpreter gate (source lines 20-24) raises `RuntimeError`
exactly when the major version is below 3 or the minor version is below 6;
in particular a hypothetical interpreter 4.0 is rejected. -/
theorem C10_thm :
    (∀ major minor : Nat, versionGateRaises major minor = true ↔ major < 3 ∨ minor < 6)
      ∧ versionGateRaises 4 0 = true := by
  refine ⟨fun major minor => ?_, by decide⟩
  simp only [versionGateRaises, Bool.not_eq_true', Bool.and_eq_false_iff,
    decide_eq_false_iff_not, not_le]

theorem slash_data : "/".data = ['/'] := rfl

theorem dirname_slash (p s : String) (hs : '/' ∉ s.data) : dirname (pyJoin p s) = p := by
  have hd : (pyJoin p s).data = p.data ++ '/' :: s.data := by
    simp [pyJoin, data_append, slash_data, List.append_assoc]
  unfold dirname
  rw [hd, List.reverse_append, List.reverse_cons, List.append_assoc, List.singleton_append]
  rw [dropW_append_all (p := fun c => c ≠ '/')
    (fun c hc => decide_eq_true (fun h => hs (h ▸ List.mem_reverse.mp hc)))]
  rw [dropW_cons_neg (by decide)]
  simp [mk_data]

/-- C2 counterexample: a failing configure command leaves the process in the
build-temp directory, not the original one — the claim that the working
directory is restored regardless of outcome is false. -/
theorem C2_counterexample :
    (build_cmake "/src" "/src/build/temp" "/out" "python3" false false false "Linux" 4
        none (some "/usr/include/eigen3") false "/usr" (fun _ => false) false true).finalCwd
      = "/src/build/temp"
    ∧ "/src/build/temp" ≠ "/src" := by
  exact ⟨rfl, by decide⟩

/-- C2 amended: `build_cmake` restores the original working directory only
when both external commands succeed (or the dry-run skips the build); when
the configure or the build spawn fails, the exception propagates with the
process still in the build-temp directory (source lines 235-240 have no
`try`/`finally`). -/
theorem C2_amended (cwd bt extdir pyExe : String) (dbg vb dry : Bool) (plat : String)
    (n : Nat) (cxx : Option String) (e : String) (conda : Bool) (pfx : String)
    (ex : String → Bool) (bOk : Bool) :
    (build_cmake cwd bt extdir pyExe dbg vb dry plat n cxx (some e) conda pfx ex
        true true).finalCwd = cwd
    ∧ (build_cmake cwd bt extdir pyExe dbg vb dry plat n cxx (some e) conda pfx ex
        false bOk).finalCwd = bt
    ∧ (build_cmake cwd bt extdir pyExe dbg vb false plat n cxx (some e) conda pfx ex
        true false).finalCwd = bt := by
  cases cxx <;> cases dry <;> simp [build_cmake, set_cmake_user_options]

/-- Existence probe of the C3 counterexample: only `<prefix>/Library/include`
exists; neither conventional Eigen3 location does. -/
def exLibOnly : String → Bool := fun p => p = "/opt/conda/Library/include"

/-- C3 counterexample: in a conda environment with no override and neither
`<prefix>/include/eigen3` nor `<prefix>/Library/include/eigen3` present,
`build_cmake` does not raise at all when `<prefix>/Library/include` exists:
the probe falls back to that parent directory and the external commands
run — the claim that this situation is a fatal error is false. -/
theorem C3_counterexample :
    exLibOnly "/opt/conda/include/eigen3" = false
    ∧ exLibOnly "/opt/conda/Library/include/eigen3" = false
    ∧ (build_cmake "/s" "/s/bt" "/o" "py" false false false "Linux" 2 none none true
        "/opt/conda" exLibOnly true true).error = none
    ∧ (build_cmake "/s" "/s/bt" "/o" "py" false false false "Linux" 2 none none true
        "/opt/conda" exLibOnly true true).spawned ≠ [] := by
  exact ⟨by decide, by decide, by decide, by decide⟩

/-- C3 amended: with no override, in a conda environment, the fatal
`RuntimeError` is raised before any external command runs (and with the
working directory untouched) exactly when, in addition to the two
conventional Eigen3 locations, the fallback parent directory
`<prefix>/Library/include` does not exist either. -/
theorem C3_amended (cwd bt extdir pyExe : String) (dbg vb dry : Bool) (plat : String)
    (n : Nat) (cxx : Option String) (pfx : String) (ex : String → Bool) (cOk bOk : Bool)
    (h1 : ex (pyJoin (pyJoin pfx "include") "eigen3") = false)
    (h2 : ex (pyJoin (pyJoin (pyJoin pfx "Library") "include") "eigen3") = false)
    (h3 : ex (pyJoin (pyJoin pfx "Library") "include") = false) :
    build_cmake cwd bt extdir pyExe dbg vb dry plat n cxx none true pfx ex cOk bOk
      = { error := some (.runtimeError
            "Unable to find the Eigen3 library in the conda distribution used."),
          spawned := [], finalCwd := cwd } := by
  have hd : dirname (pyJoin (pyJoin (pyJoin pfx "Library") "include") "eigen3")
      = pyJoin (pyJoin pfx "Library") "include" :=
    dirname_slash _ "eigen3" (by decide)
  have he : eigen pfx ex
      = .error "Unable to find the Eigen3 library in the conda distribution used." := by
    rw [eigen, if_neg (by simp [h1]), if_neg (by simp [h2]), hd, if_neg (by simp [h3])]
  cases cxx <;> simp [build_cmake, set_cmake_user_options, he]

/-- C3 amended witness: with no location existing at all, the build step
fails with the RuntimeError of the probe before spawning anything. -/
theorem C3_witness :
    build_cmake "/s" "/s/bt" "/o" "py" false false false "Linux" 2 none none true
        "/opt/conda" (fun _ => false) true true
      = { error := some (.runtimeError
            "Unable to find the Eigen3 library in the conda distribution used."),
          spawned := [], finalCwd := "/s" } :=
  C3_amended "/s" "/s/bt" "/o" "py" false false false "Linux" 2 none "/opt/conda"
    (fun _ => false) true true rfl rfl rfl

/-- C9: when the user supplies an explicit Eigen3 include override, the user
options end with exactly `-DEIGEN3_INCLUDE_DIR=<override>`, the assembled
configure arguments contain that definition verbatim on every platform, and
the whole build step is independent of the conda auto-detection probe (the
prefix and the existence oracle are never consulted). -/
theorem C9_thm (cxx : Option String) (e : String) :
    (∀ (conda : Bool) (pfx : String) (ex : String → Bool),
        set_cmake_user_options cxx (some e) conda pfx ex
          = .ok ((match cxx with
                  | some c => ["-DCMAKE_CXX_COMPILER=" ++ c]
                  | none => []) ++ ["-DEIGEN3_INCLUDE_DIR=" ++ e]))
    ∧ (∀ (extdir pyExe cfg plat : String) (opts : List String),
        ("-DEIGEN3_INCLUDE_DIR=" ++ e)
          ∈ cmakeArgsOf extdir pyExe (opts ++ ["-DEIGEN3_INCLUDE_DIR=" ++ e]) cfg plat)
    ∧ (∀ (cwd bt extdir pyExe : String) (dbg vb dry : Bool) (plat : String) (n : Nat)
        (conda : Bool) (pfx1 pfx2 : String) (ex1 ex2 : String → Bool) (cOk bOk : Bool),
        build_cmake cwd bt extdir pyExe dbg vb dry plat n cxx (some e) conda pfx1 ex1 cOk bOk
          = build_cmake cwd bt extdir pyExe dbg vb dry plat n cxx (some e) conda pfx2 ex2
              cOk bOk) := by
  refine ⟨?_, ?_, ?_⟩
  · intro conda pfx ex
    cases cxx <;> simp [set_cmake_user_options]
  · intro extdir pyExe cfg plat opts
    simp only [cmakeArgsOf]
    split <;> simp
  · intro cwd bt extdir pyExe dbg vb dry plat n conda pfx1 pfx2 ex1 ex2 cOk bOk
    cases cxx <;> simp [build_cmake, set_cmake_user_options]

theorem takeW_cons_pos {p : Char → Bool} {c : Char} (h : p c = true) (cs : List Char) :
    takeW p (c :: cs) = c :: takeW p cs := by
  simp [takeW, h]

theorem dropW_cons_pos {p : Char → Bool} {c : Char} (h : p c = true) (cs : List Char) :
    dropW p (c :: cs) = dropW p cs := by
  simp [dropW, h]

/-- C7: with no describe output, either the persisted module is absent (the
`open` raises `FileNotFoundError`) or it contains no embedded version
assignment (the bare `raise AssertionError()` fires): `revision` fails
before returning any version, hence before any build step. -/
theorem C7_thm (gl : String → String) (y : Int → Int) (f : Int → String) (fs : PyFS)
    (h : ∀ m, fs.moduleFile = some m → scanContent m = none) :
    revision "" gl y f fs
      = .error (match fs.moduleFile with
                | none => PyError.fileNotFound
                | some _ => PyError.assertionError) := by
  have h0 : pyStrip "" = "" := rfl
  cases hm : fs.moduleFile with
  | none => simp [revision, h0, hm]
  | some m => simp [revision, h0, hm, h m hm]

/-- C7 witness: with no describe output and no module file, revision raises
FileNotFoundError. -/
theorem C7_witness :
    revision "" (fun _ => "") (fun _ => 0) (fun _ => "") ⟨none, none, none⟩
      = .error PyError.fileNotFound :=
  C7_thm (fun _ => "") (fun _ => 0) (fun _ => "") ⟨none, none, none⟩
    (fun _ hm => Option.noConfusion hm)

/-- The key of a conf.py line: group 1 of the first `key = value` match. -/
def keyOf (line : String) : Option String := (searchP4 line.data).map Prod.fst

/-- Number of lines of a conf.py file whose key is `k`. -/
def countKey (k : String) (lines : List String) : Nat :=
  List.countP (fun l => decide (keyOf l = some k)) lines

theorem matchP4At_keyline (key : String) (rest : List Char)
    (h1 : key.data ≠ []) (h2 : ∀ c ∈ key.data, isWordChar c = true) :
    matchP4At (key.data ++ ' ' :: '=' :: ' ' :: rest)
      = some (key, ⟨takeW (fun c => c ≠ '\n') (dropW isSpaceChar rest)⟩) := by
  have e1 : takeW isWordChar (key.data ++ ' ' :: '=' :: ' ' :: rest) = key.data := by
    rw [takeW_append_all h2, takeW_cons_neg (by decide), List.append_nil]
  have e2 : dropW isWordChar (key.data ++ ' ' :: '=' :: ' ' :: rest)
      = ' ' :: '=' :: ' ' :: rest := by
    rw [dropW_append_all h2, dropW_cons_neg (by decide)]
  have e3 : takeW isSpaceChar (' ' :: '=' :: ' ' :: rest) = [' '] := by
    rw [takeW_cons_pos (by decide), takeW_cons_neg (by decide)]
  have e4 : dropW isSpaceChar (' ' :: '=' :: ' ' :: rest) = '=' :: ' ' :: rest := by
    rw [dropW_cons_pos (by decide), dropW_cons_neg (by decide)]
  have e5 : takeW isSpaceChar (' ' :: rest) = ' ' :: takeW isSpaceChar rest :=
    takeW_cons_pos (by decide) _
  have e6 : dropW isSpaceChar (' ' :: rest) = dropW isSpaceChar rest :=
    dropW_cons_pos (by decide) _
  obtain ⟨k0, ks, hk⟩ := List.exists_cons_of_ne_nil h1
  rw [hk] at e1 e2
  rw [hk, List.cons_append]
  simp only [matchP4At, List.cons_append] at e1 e2 ⊢
  rw [e1, e2]
  simp only [e3, e4, e5, e6]
  rw [← hk, mk_data]

theorem searchP4_keyline (key : String) (rest : List Char)
    (h1 : key.data ≠ []) (h2 : ∀ c ∈ key.data, isWordChar c = true) :
    searchP4 (key.data ++ ' ' :: '=' :: ' ' :: rest)
      = some (key, ⟨takeW (fun c => c ≠ '\n') (dropW isSpaceChar rest)⟩) := by
  have hm := matchP4At_keyline key rest h1 h2
  obtain ⟨k0, ks, hk⟩ := List.exists_cons_of_ne_nil h1
  rw [hk, List.cons_append] at hm ⊢
  simp [searchP4, hm]

theorem versionLine_data (v : String) :
    ("version = " ++ pyRepr v ++ "\n").data
      = "version".data ++ ' ' :: '=' :: ' ' :: ('\x27' :: (v.data ++ '\x27' :: '\n' :: [])) := by
  simp only [pyRepr, data_append, List.append_assoc]
  rfl

theorem releaseLine_data (v : String) :
    ("release = " ++ pyRepr v ++ "\n").data
      = "release".data ++ ' ' :: '=' :: ' ' :: ('\x27' :: (v.data ++ '\x27' :: '\n' :: [])) := by
  simp only [pyRepr, data_append, List.append_assoc]
  rfl

theorem copyrightLine_data (y : Int) :
    ("copyright = \x27(" ++ toString y ++ ", CNES/CLS)\x27\n").data
      = "copyright".data ++ ' ' :: '=' :: ' '
          :: ('\x27' :: '(' :: ((toString y).data ++ ", CNES/CLS)\x27\n".data)) := by
  simp only [data_append, List.append_assoc]
  rfl

theorem keyOf_versionLine (v : String) :
    keyOf ("version = " ++ pyRepr v ++ "\n") = some "version" := by
  unfold keyOf
  rw [versionLine_data, searchP4_keyline "version" _ (by decide) (by decide)]
  rfl

theorem keyOf_releaseLine (v : String) :
    keyOf ("release = " ++ pyRepr v ++ "\n") = some "release" := by
  unfold keyOf
  rw [releaseLine_data, searchP4_keyline "release" _ (by decide) (by decide)]
  rfl

theorem keyOf_copyrightLine (y : Int) :
    keyOf ("copyright = \x27(" ++ toString y ++ ", CNES/CLS)\x27\n") = some "copyright" := by
  unfold keyOf
  rw [copyrightLine_data, searchP4_keyline "copyright" _ (by decide) (by decide)]
  rfl

theorem updateConfLine_of_version {l : String} (v : String) (y : Int)
    (h : keyOf l = some "version") :
    updateConfLine v y l = "version = " ++ pyRepr v ++ "\n" := by
  unfold keyOf at h
  unfold updateConfLine
  cases hs : searchP4 l.data with
  | none => rw [hs] at h; cases h
  | some kv =>
    rw [hs] at h
    obtain ⟨k, val⟩ := kv
    have hk : k = "version" := by simpa using h
    subst hk
    simp

theorem updateConfLine_of_release {l : String} (v : String) (y : Int)
    (h : keyOf l = some "release") :
    updateConfLine v y l = "release = " ++ pyRepr v ++ "\n" := by
  unfold keyOf at h
  unfold updateConfLine
  cases hs : searchP4 l.data with
  | none => rw [hs] at h; cases h
  | some kv =>
    rw [hs] at h
    obtain ⟨k, val⟩ := kv
    have hk : k = "release" := by simpa using h
    subst hk
    simp

theorem updateConfLine_of_copyright {l : String} (v : String) (y : Int)
    (h : keyOf l = some "copyright") :
    updateConfLine v y l = "copyright = \x27(" ++ toString y ++ ", CNES/CLS)\x27\n" := by
  unfold keyOf at h
  unfold updateConfLine
  cases hs : searchP4 l.data with
  | none => rw [hs] at h; cases h
  | some kv =>
    rw [hs] at h
    obtain ⟨k, val⟩ := kv
    have hk : k = "copyright" := by simpa using h
    subst hk
    simp

theorem updateConfLine_of_other {l : String} (v : String) (y : Int)
    (h1 : keyOf l ≠ some "version") (h2 : keyOf l ≠ some "release")
    (h3 : keyOf l ≠ some "copyright") :
    updateConfLine v y l = l := by
  unfold keyOf at h1 h2 h3
  unfold updateConfLine
  cases hs : searchP4 l.data with
  | none => rfl
  | some kv =>
    rw [hs] at h1 h2 h3
    obtain ⟨k, val⟩ := kv
    have hk1 : ¬k = "version" := fun hc => h1 (by simp [hc])
    have hk2 : ¬k = "release" := fun hc => h2 (by simp [hc])
    have hk3 : ¬k = "copyright" := fun hc => h3 (by simp [hc])
    simp [hk1, hk2, hk3]

theorem keyOf_updateConfLine (v : String) (y : Int) (l : String) :
    keyOf (updateConfLine v y l) = keyOf l := by
  by_cases h1 : keyOf l = some "version"
  · rw [updateConfLine_of_version v y h1, keyOf_versionLine, h1]
  · by_cases h2 : keyOf l = some "release"
    · rw [updateConfLine_of_release v y h2, keyOf_releaseLine, h2]
    · by_cases h3 : keyOf l = some "copyright"
      · rw [updateConfLine_of_copyright v y h3, keyOf_copyrightLine, h3]
      · rw [updateConfLine_of_other v y h1 h2 h3]

theorem countP_keyOf_map (p : Option String → Bool) (v : String) (y : Int)
    (lines : List String) :
    List.countP (fun l => p (keyOf l)) (lines.map (updateConfLine v y))
      = List.countP (fun l => p (keyOf l)) lines := by
  induction lines with
  | nil => rfl
  | cons a l ih => simp [List.countP_cons, keyOf_updateConfLine, ih]

theorem countKey_map (k v : String) (y : Int) (lines : List String) :
    countKey k (lines.map (updateConfLine v y)) = countKey k lines :=
  countP_keyOf_map (fun o => decide (o = some k)) v y lines

/-- C8: rewriting a conf.py file (as its list of lines) with version `v1`
and year `y1` and then again with `v2` and `y2` keeps exactly one
`version`-keyed line and one `release`-keyed line when the original had
exactly one of each; those lines hold the latest version `v2` (as the
`repr`-quoted assignment the source writes), and every line keyed neither
`version`, `release` nor `copyright` passes through unchanged, in place.
The version alphabet hypothesis scopes the `%r` model `pyRepr` to strings
on which it is exact. -/
theorem C8_thm (lines : List String) (v1 v2 : String) (y1 y2 : Int)
    (_hv2 : ∀ c ∈ v2.data, isWordDotChar c = true)
    (hv : countKey "version" lines = 1) (hr : countKey "release" lines = 1) :
    countKey "version" ((lines.map (updateConfLine v1 y1)).map (updateConfLine v2 y2)) = 1
    ∧ countKey "release" ((lines.map (updateConfLine v1 y1)).map (updateConfLine v2 y2)) = 1
    ∧ (∀ l ∈ lines, keyOf l = some "version" →
        updateConfLine v2 y2 (updateConfLine v1 y1 l) = "version = " ++ pyRepr v2 ++ "\n")
    ∧ (∀ l ∈ lines, keyOf l = some "release" →
        updateConfLine v2 y2 (updateConfLine v1 y1 l) = "release = " ++ pyRepr v2 ++ "\n")
    ∧ (∀ l ∈ lines, keyOf l ≠ some "version" → keyOf l ≠ some "release" →
        keyOf l ≠ some "copyright" →
        updateConfLine v2 y2 (updateConfLine v1 y1 l) = l) := by
  refine ⟨?_, ?_, ?_, ?_, ?_⟩
  · rw [countKey_map, countKey_map, hv]
  · rw [countKey_map, countKey_map, hr]
  · intro l _ h
    rw [updateConfLine_of_version v1 y1 h,
      updateConfLine_of_version v2 y2 (keyOf_versionLine v1)]
  · intro l _ h
    rw [updateConfLine_of_release v1 y1 h,
      updateConfLine_of_release v2 y2 (keyOf_releaseLine v1)]
  · intro l _ h1 h2 h3
    rw [updateConfLine_of_other v1 y1 h1 h2 h3, updateConfLine_of_other v2 y2 h1 h2 h3]

/-- A conf.py file for the C8 witness: a comment, one version line, one
release line, one unrelated assignment. -/
def confLines0 : List String :=
  ["# conf\n", "version = \x270.1\x27\n", "release = \x270.1\x27\n", "author = CNES\n"]

/-- C8 witness: two successive rewrites of the witness file keep exactly one
version-keyed line. -/
theorem C8_witness :
    countKey "version"
        ((confLines0.map (updateConfLine "1.0" 2019)).map (updateConfLine "2.0" 2020)) = 1 :=
  (C8_thm confLines0 "1.0" "2.0" 2019 2020 (by decide) (by decide) (by decide)).1

theorem splitLinesAux_line0 {a : List Char} (ha : '\n' ∉ a) (b : List Char) :
    splitLinesAux (a ++ '\n' :: b) [] = (a ++ ['\n']) :: splitLinesAux b [] := by
  rw [splitLinesAux_line ha]
  simp

theorem splitLinesAux_newline (b : List Char) :
    splitLinesAux ('\n' :: b) [] = ['\n'] :: splitLinesAux b [] := by
  rw [splitLinesAux_cons, if_pos rfl]
  rfl

theorem firstResultLine_skip {l : List Char} (h : searchP3 l = none)
    (ls : List (List Char)) : firstResultLine (l :: ls) = firstResultLine ls := by
  simp [firstResultLine, h]

theorem firstResultLine_hit {l : List Char} {v : String} (h : searchP3 l = some v)
    (ls : List (List Char)) : firstResultLine (l :: ls) = some v := by
  simp [firstResultLine, h]

theorem searchP3_cons_hit {c : Char} {cs : List Char} {r : String}
    (h : matchP3At (c :: cs) = some r) : searchP3 (c :: cs) = some r := by
  simp [searchP3, h]

theorem stripResultMarker_eq (rest : List Char) :
    stripResultMarker
        ('r' :: 'e' :: 's' :: 'u' :: 'l' :: 't' :: ' ' :: '=' :: ' ' :: '"' :: rest)
      = some rest := rfl

theorem searchP3_result_line (v : List Char) (hv : ∀ c ∈ v, c ≠ '\n') :
    searchP3 ((("    result = \"".data ++ v) ++ ['"']) ++ ['\n']) = some ⟨v⟩ := by
  have hshape : ((("    result = \"".data ++ v) ++ ['"']) ++ ['\n'])
      = ' ' :: ' ' :: ' ' :: ' '
          :: ('r' :: 'e' :: 's' :: 'u' :: 'l' :: 't' :: ' ' :: '=' :: ' ' :: '"'
            :: (v ++ '"' :: '\n' :: [])) := by
    simp only [List.append_assoc, List.cons_append, List.singleton_append, List.nil_append]
  have e1 : takeW isSpaceChar
      (' ' :: ' ' :: ' ' :: ' '
        :: ('r' :: 'e' :: 's' :: 'u' :: 'l' :: 't' :: ' ' :: '=' :: ' ' :: '"'
          :: (v ++ '"' :: '\n' :: [])))
      = ' ' :: ' ' :: ' ' :: ' ' :: [] := by
    rw [takeW_cons_pos (by decide), takeW_cons_pos (by decide), takeW_cons_pos (by decide),
      takeW_cons_pos (by decide), takeW_cons_neg (by decide)]
  have e2 : dropW isSpaceChar
      (' ' :: ' ' :: ' ' :: ' '
        :: ('r' :: 'e' :: 's' :: 'u' :: 'l' :: 't' :: ' ' :: '=' :: ' ' :: '"'
          :: (v ++ '"' :: '\n' :: [])))
      = 'r' :: 'e' :: 's' :: 'u' :: 'l' :: 't' :: ' ' :: '=' :: ' ' :: '"'
          :: (v ++ '"' :: '\n' :: []) := by
    rw [dropW_cons_pos (by decide), dropW_cons_pos (by decide), dropW_cons_pos (by decide),
      dropW_cons_pos (by decide), dropW_cons_neg (by decide)]
  have e4 : beforeLastQuote (v ++ '"' :: '\n' :: []) = some v := by
    unfold beforeLastQuote
    have t1 : takeW (fun c => c ≠ '\n') (v ++ '"' :: '\n' :: []) = v ++ ['"'] := by
      rw [takeW_append_all (fun c hc => decide_eq_true (hv c hc)),
        takeW_cons_pos (by decide), takeW_cons_neg (by decide)]
    rw [t1, List.reverse_append]
    simp only [List.reverse_cons, List.reverse_nil, List.nil_append, List.singleton_append]
    rw [dropW_cons_neg (by decide)]
    simp [List.reverse_reverse]
  have hm : matchP3At
      (' ' :: ' ' :: ' ' :: ' '
        :: ('r' :: 'e' :: 's' :: 'u' :: 'l' :: 't' :: ' ' :: '=' :: ' ' :: '"'
          :: (v ++ '"' :: '\n' :: []))) = some ⟨v⟩ := by
    unfold matchP3At
    rw [e1, e2, stripResultMarker_eq]
    simp [e4]
  rw [hshape]
  exact searchP3_cons_hit hm

set_option maxRecDepth 8192 in
theorem moduleContent_data (v d : String) :
    (moduleContent v d).data
      = "\"\"\"".data ++ '\n'
      :: ("Get software version information".data ++ '\n'
      :: ("================================".data ++ '\n'
      :: ("\"\"\"".data ++ '\n'
      :: ('\n'
      :: ('\n'
      :: ("def release(full: bool = False) -> str:".data ++ '\n'
      :: ("    \"\"\"Returns the software version number\"\"\"".data ++ '\n'
      :: ((("    result = \"".data ++ v.data) ++ ['"']) ++ '\n'
      :: ("    if full:".data ++ '\n'
      :: ((("        result += \" (".data ++ d.data) ++ [')', '"']) ++ '\n'
      :: ("    return result".data ++ '\n' :: []))))))))))) := by
  simp only [moduleContent, data_append, List.append_assoc, List.cons_append,
    List.singleton_append, List.nil_append]

theorem scanContent_moduleContent (v d : String) (hv : ∀ c ∈ v.data, c ≠ '\n') :
    scanContent (moduleContent v d) = some v := by
  have ha9 : '\n' ∉ (("    result = \"".data ++ v.data) ++ ['"']) := by
    intro h
    rcases List.mem_append.mp h with h | h
    · rcases List.mem_append.mp h with h | h
      · exact absurd h (by decide)
      · exact hv '\n' h rfl
    · exact absurd h (by decide)
  unfold scanContent
  rw [moduleContent_data,
    splitLinesAux_line0 (by decide),
    splitLinesAux_line0 (by decide),
    splitLinesAux_line0 (by decide),
    splitLinesAux_line0 (by decide),
    splitLinesAux_newline,
    splitLinesAux_newline,
    splitLinesAux_line0 (by decide),
    splitLinesAux_line0 (by decide),
    splitLinesAux_line0 ha9]
  rw [firstResultLine_skip (by decide), firstResultLine_skip (by decide),
    firstResultLine_skip (by decide), firstResultLine_skip (by decide),
    firstResultLine_skip (by decide), firstResultLine_skip (by decide),
    firstResultLine_skip (by decide), firstResultLine_skip (by decide),
    firstResultLine_hit (searchP3_result_line v.data hv)]

theorem matchP1At_shape {s : List Char} {r : String × String × Bool}
    (h : matchP1At s = some r) : r.1 = ⟨takeW isWordDotChar s⟩ := by
  unfold matchP1At at h
  split at h
  · cases h
  · split at h
    · cases h
    · split at h
      · cases h
      · rename_i g1 r2 heq1 g2 r3 heq2 g3 r5 heq3
        cases h
        simp_all
    · cases h
  · cases h

theorem searchP1_shape {l : List Char} {r : String × String × Bool}
    (h : searchP1 l = some r) : ∀ c ∈ r.1.data, isWordDotChar c = true := by
  induction l with
  | nil => cases h
  | cons x xs ih =>
    unfold searchP1 at h
    cases hm : matchP1At (x :: xs) with
    | some r2 =>
      simp only [hm] at h
      cases h
      rw [matchP1At_shape hm]
      intro c hc
      exact mem_takeW hc
    | none =>
      simp only [hm] at h
      exact ih h

theorem versionSha_ok_chars {s ver sh : String} (h : versionSha s = .ok (ver, sh)) :
    ∀ c ∈ ver.data, isWordDotChar c = true := by
  unfold versionSha at h
  cases h1 : searchP1 s.data with
  | some r =>
    obtain ⟨a, b, dd⟩ := r
    simp only [h1] at h
    have ha : a = ver := by
      simp only [Except.ok.injEq, Prod.mk.injEq] at h
      exact h.1
    subst ha
    exact searchP1_shape h1
  | none =>
    simp only [h1] at h
    cases h2 : searchP2 s.data with
    | none => simp only [h2] at h; cases h
    | some g =>
      simp only [h2] at h
      have hv : "0.1" = ver := by
        simp only [Except.ok.injEq, Prod.mk.injEq] at h
        exact h.1
      rw [← hv]
      decide

/-- The observable behaviour of `revision` on a run whose describe output
parses and whose `git log` lookup yields a timestamp: the conf.py `open`
decides between `FileNotFoundError` and the fully propagated write-out. -/
theorem revision_describe_run (s : String) (hs : pyStrip s ≠ "")
    (ver sh : String) (hp : versionSha (pyStrip s) = .ok (ver, sh))
    (gl : String → String) (y : Int → Int) (f : Int → String) (fs : PyFS)
    (ts : Int) (hts : gitLogTs (gl sh) = some ts) :
    revision s gl y f fs
      = match fs.confFile with
        | none => .error .fileNotFound
        | some cc =>
          .ok (ver,
            { moduleFile := some (moduleContent ver (f ts)),
              metaFile := fs.metaFile.map (updateMetaContent ver),
              confFile := some (updateConfContent ver (y ts) cc) }) := by
  have hs' : (pyStrip s = "") = False := eq_false hs
  cases h1 : (pySplit (pyStrip (gl sh)).data)[1]? with
  | none =>
    exfalso
    unfold gitLogTs at hts
    rw [h1] at hts
    cases hts
  | some t =>
    have h2 : pyInt ⟨t⟩ = some ts := by
      unfold gitLogTs at hts
      rw [h1] at hts
      exact hts
    simp only [revision, hs', if_false, hp, h1, h2]

/-- C1 counterexample: in a development tree (describe output present) with
docs/source/conf.py absent, `revision` does not complete: the unconditional
`open` of conf.py raises `FileNotFoundError`. -/
theorem C1_counterexample :
    revision "v1.2.3-4-gabc12" (fun _ => "deadbeefcafe 1500000000") (fun _ => 2017)
        (fun _ => "14 July 2017") ⟨some "", none, none⟩
      = .error PyError.fileNotFound := by rfl

/-- C1 amended: absent downstream files are silently skipped only for
conda/meta.yaml; docs/source/conf.py is opened unconditionally, so whenever
the describe output is non-empty (and the log lookup parses), its absence
makes `revision` fail with `FileNotFoundError` instead of completing.
(`revision` tolerates a missing conf.py only on the empty-describe fallback
path, which returns before reaching it.) -/
theorem C1_amended (tag cnt hash : String)
    (ht1 : tag.data ≠ []) (ht2 : ∀ c ∈ tag.data, isWordDotChar c = true)
    (hc1 : cnt.data ≠ []) (hc2 : ∀ c ∈ cnt.data, isDigitChar c = true)
    (hh1 : hash.data ≠ []) (hh2 : ∀ c ∈ hash.data, isWordChar c = true)
    (gl : String → String) (y : Int → Int) (f : Int → String) (fs : PyFS)
    (hconf : fs.confFile = none) (ts : Int) (hts : gitLogTs (gl hash) = some ts) :
    revision (describeString tag cnt hash false) gl y f fs = .error PyError.fileNotFound := by
  have hstrip : pyStrip (describeString tag cnt hash false)
      = describeString tag cnt hash false := by
    apply pyStrip_eq_self
    intro c hc
    rw [describeString_data] at hc
    simp only [if_neg Bool.false_ne_true, List.append_nil] at hc
    rcases List.mem_append.mp hc with h | h
    · exact space_of_wordDot (ht2 c h)
    · rcases List.mem_cons.mp h with rfl | h
      · decide
      · rcases List.mem_append.mp h with h | h
        · exact space_of_wordDot (wordDot_of_digit (hc2 c h))
        · rcases List.mem_cons.mp h with rfl | h
          · decide
          · rcases List.mem_cons.mp h with rfl | h
            · decide
            · exact space_of_wordDot (wordDot_of_word (hh2 c h))
  have hne : pyStrip (describeString tag cnt hash false) ≠ "" := by
    rw [hstrip]
    intro hemp
    have hd : (describeString tag cnt hash false).data = "".data := by rw [hemp]
    rw [describeString_data, empty_data] at hd
    simp at hd
  have hp : versionSha (pyStrip (describeString tag cnt hash false)) = .ok (tag, hash) := by
    rw [hstrip]
    exact versionSha_describe tag cnt hash false ht1 ht2 hc1 hc2 hh1 hh2
  rw [revision_describe_run _ hne tag hash hp gl y f fs ts hts, hconf]

/-- C1 amended witness: a concrete layout without conf.py fails with
FileNotFoundError. -/
theorem C1_witness :
    revision (describeString "v1.2.3" "4" "abc12" false)
        (fun _ => "deadbeefcafe 1500000000") (fun _ => 2017) (fun _ => "14 July 2017")
        ⟨some "", none, none⟩
      = .error PyError.fileNotFound :=
  C1_amended "v1.2.3" "4" "abc12" (by decide) (by decide) (by decide) (by decide)
    (by decide) (by decide) (fun _ => "deadbeefcafe 1500000000") (fun _ => 2017)
    (fun _ => "14 July 2017") ⟨some "", none, none⟩ rfl 1500000000 (by decide)

/-- C4: write-then-read round trip.  Whenever a run of `revision` succeeds
with version `v` (whatever its input filesystem and oracles), a subsequent
run on the resulting filesystem that gets no describe output recovers
exactly `v` from the generated version module, leaves every file untouched,
and consults no version-control oracle (the `git log` and date oracles of
the second run are arbitrary). -/
theorem C4_thm (d : String) (gl : String → String) (y : Int → Int) (f : Int → String)
    (fs : PyFS) (v : String) (fs2 : PyFS)
    (h : revision d gl y f fs = .ok (v, fs2)) :
    ∀ (gl2 : String → String) (y2 : Int → Int) (f2 : Int → String),
      revision "" gl2 y2 f2 fs2 = .ok (v, fs2) := by
  intro gl2 y2 f2
  have h0 : pyStrip "" = "" := rfl
  by_cases hs : pyStrip d = ""
  · unfold revision at h
    rw [if_pos hs] at h
    cases hm : fs.moduleFile with
    | none => simp [hm] at h
    | some m =>
      simp only [hm] at h
      cases hscan : scanContent m with
      | none => simp [hscan] at h
      | some v0 =>
        simp only [hscan, Except.ok.injEq, Prod.mk.injEq] at h
        obtain ⟨rfl, rfl⟩ := h
        simp [revision, h0, hm, hscan]
  · unfold revision at h
    rw [if_neg hs] at h
    cases hp : versionSha (pyStrip d) with
    | error e => simp [hp] at h
    | ok p =>
      obtain ⟨ver, sh⟩ := p
      simp only [hp] at h
      cases h1 : (pySplit (pyStrip (gl sh)).data)[1]? with
      | none => simp [h1] at h
      | some t =>
        simp only [h1] at h
        cases h2 : pyInt ⟨t⟩ with
        | none => simp [h2] at h
        | some ts =>
          simp only [h2] at h
          cases hc : fs.confFile with
          | none => simp [hc] at h
          | some cc =>
            simp only [hc, Except.ok.injEq, Prod.mk.injEq] at h
            obtain ⟨rfl, rfl⟩ := h
            have hnl : ∀ c ∈ ver.data, c ≠ '\n' := fun c hcv =>
              ne_newline_of_wordDot (versionSha_ok_chars hp c hcv)
            simp [revision, h0, scanContent_moduleContent ver (f ts) hnl]

/-- C4 witness: the filesystem produced by a concrete successful run feeds a
second run with empty describe output that returns the same version and the
same filesystem. -/
theorem C4_witness :
    revision "" (fun _ => "deadbeefcafe 1500000000") (fun _ => 2017)
        (fun _ => "14 July 2017")
        { moduleFile := some (moduleContent "v1.2.3" "14 July 2017"),
          metaFile := none,
          confFile := some (updateConfContent "v1.2.3" 2017 "version = \x270\x27\n") }
      = .ok ("v1.2.3",
          { moduleFile := some (moduleContent "v1.2.3" "14 July 2017"),
            metaFile := none,
            confFile := some (updateConfContent "v1.2.3" 2017 "version = \x270\x27\n") }) :=
  C4_thm "v1.2.3-4-gabc12" (fun _ => "deadbeefcafe 1500000000") (fun _ => 2017)
    (fun _ => "14 July 2017") ⟨some "", none, some "version = \x270\x27\n"⟩ "v1.2.3" _
    (by rfl) (fun _ => "deadbeefcafe 1500000000") (fun _ => 2017) (fun _ => "14 July 2017")
